import Mathlib

/-!
Verification of the budget-chat application core (`app.py`): the ledger
normalizer `parse_expense_csv`, the expense summary computed by the upload
handler, the prompt template, and the chat-turn handler operating on the
session message log.  Pandas tables are embedded as lists of rows, each row
an association list from column name to cell; machine floats are embedded
as rationals.
-/

namespace BudgetApp

/-- Value held in one table cell after `pd.read_csv`: a number, a piece of
text, or a missing value (NaN). -/
inductive Cell where
  | num (q : ℚ)
  | str (s : String)
  | nan
deriving DecidableEq, Repr

/-- One table row: an association list from column name to cell. -/
abbrev Row := List (String × Cell)

/-- A pandas DataFrame: named columns and a list of rows keyed by column
name. -/
structure Table where
  cols : List String
  rows : List Row
deriving DecidableEq, Repr

/-- Numeric value of a list of decimal digit characters. -/
def natOfDigits (cs : List Char) : Nat :=
  cs.foldl (fun n c => 10 * n + (c.toNat - 48)) 0

/-- Strip an optional leading sign, returning whether it was a minus. -/
def splitSign : List Char → Bool × List Char
  | '-' :: cs => (true, cs)
  | '+' :: cs => (false, cs)
  | cs => (false, cs)

/-- Parse the mantissa part of a decimal numeral: digits with an optional
fractional part, at least one digit overall. -/
def parseMantissa (cs : List Char) : Option ℚ :=
  let ip := cs.takeWhile (·.isDigit)
  let rest := cs.dropWhile (·.isDigit)
  match rest with
  | [] => if ip.isEmpty then none else some (natOfDigits ip)
  | '.' :: fp =>
    if fp.all (·.isDigit) && !(ip.isEmpty && fp.isEmpty) then
      some ((natOfDigits ip : ℚ) + (natOfDigits fp : ℚ) / (10 : ℚ) ^ fp.length)
    else none
  | _ => none

/-- Parse an optional exponent suffix (`e`/`E`, optional sign, digits). -/
def parseExponent : List Char → Option ℤ
  | [] => some 0
  | e :: ecs =>
    if e == 'e' || e == 'E' then
      let (neg, ds) := splitSign ecs
      if ds.isEmpty || !(ds.all (·.isDigit)) then none
      else some (if neg then -(natOfDigits ds : ℤ) else (natOfDigits ds : ℤ))
    else none

/-- Parse a string as a decimal number, as `pd.to_numeric` does on a text
cell: optional sign, digits with optional fraction, optional exponent.
Returns `none` when the text is not numeric. -/
def parseDecimal (s : String) : Option ℚ :=
  let (neg, cs) := splitSign s.data
  let mant := cs.takeWhile (fun c => !(c == 'e' || c == 'E'))
  let rest := cs.dropWhile (fun c => !(c == 'e' || c == 'E'))
  match parseMantissa mant, parseExponent rest with
  | some m, some e => some ((if neg then -m else m) * (10 : ℚ) ^ e)
  | _, _ => none

/-- Embedding of `pd.to_numeric(cell, errors='coerce')` on a single cell:
numbers pass through, text is parsed, failures and NaN give `none` (NaN). -/
def Cell.toNumeric : Cell → Option ℚ
  | .num q => some q
  | .str s => parseDecimal s
  | .nan => none

/-- Embedding of `astype(str)` on one cell. -/
def Cell.asStr : Cell → String
  | .num q => toString q
  | .str s => s
  | .nan => "nan"

/-- Embedding of Python `str.lower()`: lowercase every character. -/
def strLower (s : String) : String := ⟨s.data.map Char.toLower⟩

/-- The fixed column-alias table of `parse_expense_csv` (app.py lines 73-77),
applied through `df.rename(columns=lambda col: column_mapping.get(col, col))`:
the four vendor-specific headers are renamed, every other name passes
through unchanged. -/
def column_mapping (c : String) : String :=
  if c = "Narration / Description" then "Description"
  else if c = "Amount (‚Çπ)" then "Amount"
  else if c = "Balance (‚Çπ)" then "Balance"
  else if c = "Reference No." then "Reference Number"
  else c

/-- Rename the keys of one row by the alias table. -/
def renameRow (r : Row) : Row := r.map (fun p => (column_mapping p.1, p.2))

/-- Embedding of `df.rename(columns=...)`: rename every column label by the
alias table. -/
def renameTable (t : Table) : Table :=
  { cols := t.cols.map column_mapping, rows := t.rows.map renameRow }

/-- The required canonical columns (app.py line 80). -/
def required_columns : List String := ["Date", "Description", "Amount", "Type"]

/-- The first required column absent from the given column list; the check
loop of app.py lines 81-83 raises on exactly this column. -/
def firstMissing (cols : List String) : Option String :=
  required_columns.find? (fun c => !(cols.contains c))

/-- Look a cell up in a row by column name; a label absent from the row
reads as NaN, as in pandas. -/
def getCell (r : Row) (c : String) : Cell := (List.lookup c r).getD .nan

/-- The cleaning step of app.py lines 86-88 applied to one cell: the
`Amount` cell is coerced to a number with parse failures filled by zero,
the `Description` and `Type` cells are stringified and lowercased, and
every other cell is untouched. -/
def cleanCell (k : String) (v : Cell) : Cell :=
  if k = "Amount" then .num ((v.toNumeric).getD 0)
  else if k = "Description" then .str (strLower v.asStr)
  else if k = "Type" then .str (strLower v.asStr)
  else v

/-- Apply the cleaning step to every cell of a row. -/
def cleanRow (r : Row) : Row := r.map (fun p => (p.1, cleanCell p.1 p.2))

/-- The debit filter of app.py line 91: keep a (cleaned) row when its
`Type` cell equals `"debit"`. -/
def isDebit (r : Row) : Bool := (getCell r "Type").asStr == "debit"

/-- The body of `parse_expense_csv` (app.py lines 70-92): rename columns,
require the four canonical columns (raising a `ValueError` naming the first
missing one), clean the `Amount`, `Description` and `Type` columns, and keep
only debit rows.  `Except.error` is the raised exception's message. -/
def parseExpenseCsvCore (t : Table) : Except String Table :=
  match firstMissing (renameTable t).cols with
  | some c => .error ("CSV is missing the required column: '" ++ c ++ "'")
  | none =>
    .ok { cols := (renameTable t).cols
          rows := ((renameTable t).rows.map cleanRow).filter isDebit }

/-- `parse_expense_csv` at its interface (app.py lines 67-95): the input is
the outcome of reading the file (`pd.read_csv` may itself fail), the
`try/except Exception` turns every failure into a `None` return. -/
def parse_expense_csv (file : Except String Table) : Option Table :=
  match file with
  | .error _ => none
  | .ok t => (parseExpenseCsvCore t).toOption

/-- Collect the elements of a list not yet seen, in order of first
appearance; `seen` is the accumulator of already-emitted elements. -/
def dedupFirstAux : List String → List String → List String
  | _, [] => []
  | seen, x :: xs =>
    if x ∈ seen then dedupFirstAux seen xs
    else x :: dedupFirstAux (x :: seen) xs

/-- The distinct elements of a list in order of first appearance (the key
order of a pandas hash-table count). -/
def dedupFirst (l : List String) : List String := dedupFirstAux [] l

/-- Order on (category, count) pairs: descending count. -/
def countGe (a b : String × Nat) : Prop := b.2 ≤ a.2

instance : DecidableRel countGe := fun a b => Nat.decLe b.2 a.2

/-- Each distinct value of a list, in first-seen order, paired with its
number of occurrences. -/
def expensePairs (l : List String) : List (String × Nat) :=
  (dedupFirst l).map (fun k => (k, l.count k))

/-- Embedding of `Series.value_counts()`: pair each distinct value (in
first-seen order) with its occurrence count, then stably sort by descending
count, so equal counts keep first-seen order. -/
def valueCounts (l : List String) : List (String × Nat) :=
  (expensePairs l).insertionSort countGe

/-- The expense summary computed by the upload handler (app.py lines
120-121): total of the `Amount` column and `value_counts().head(5)` of the
`Description` column. -/
structure ExpenseSummary where
  total : ℚ
  topCategories : List (String × Nat)
deriving DecidableEq, Repr

/-- Amount value of a row (zero when missing or non-numeric, as after the
cleaning step). -/
def amountVal (r : Row) : ℚ := ((getCell r "Amount").toNumeric).getD 0

/-- Description value of a row as a string. -/
def descOf (r : Row) : String := (getCell r "Description").asStr

/-- Type value of a row as a string. -/
def typeOf (r : Row) : String := (getCell r "Type").asStr

/-- Compute the expense summary of a (normalized, debit-filtered) table:
`total_expense = df['Amount'].sum()`,
`top_categories = df['Description'].value_counts().head(5)`. -/
def summarize (t : Table) : ExpenseSummary :=
  { total := (t.rows.map amountVal).sum
    topCategories := (valueCounts (t.rows.map descOf)).take 5 }

/-- Embedding of Python `str.title()`: uppercase each letter that follows a
non-letter, lowercase the rest. -/
def titleCaseAux : Bool → List Char → List Char
  | _, [] => []
  | prevAlpha, c :: cs =>
    (if c.isAlpha then (if prevAlpha then c.toLower else c.toUpper) else c)
      :: titleCaseAux c.isAlpha cs

/-- Python `str.title()` on a string. -/
def titleCase (s : String) : String := ⟨titleCaseAux false s.data⟩

/-- Insert a thousands separator after every third character of a reversed
digit list. -/
def commaRev : List Char → List Char
  | a :: b :: c :: d :: rest => a :: b :: c :: ',' :: commaRev (d :: rest)
  | l => l

/-- A natural number with thousands separators. -/
def groupedDigits (n : Nat) : String := ⟨(commaRev (toString n).data.reverse).reverse⟩

/-- Embedding of the Python format spec `,.2f`: round to cents and print
with two decimals and thousands separators. -/
def formatMoney (q : ℚ) : String :=
  let cents : ℤ := round (q * 100)
  let sign := if cents < 0 then "-" else ""
  let n := cents.natAbs
  sign ++ groupedDigits (n / 100) ++ "." ++
    (if n % 100 < 10 then "0" else "") ++ toString (n % 100)

/-- The `summary_str` built by the upload handler (app.py lines 123-125). -/
def renderSummary (s : ExpenseSummary) : String :=
  "- Total Debits: ‚Çπ" ++ formatMoney s.total ++ "\n- Top 5 Expense Categories:\n" ++
    String.join (s.topCategories.map
      (fun p => "  - " ++ titleCase p.1 ++ ": " ++ toString p.2 ++ " times\n"))

/-- One chat message: `{"role": ..., "content": ...}`. -/
structure Message where
  role : String
  content : String
deriving DecidableEq, Repr

/-- The session state the handlers touch: the message log
`st.session_state.messages` and the string `st.session_state.parsed_summary`. -/
structure SessionState where
  messages : List Message
  parsed_summary : String
deriving DecidableEq, Repr

/-- Initial value of `parsed_summary` (app.py line 110). -/
def noDataSentinel : String := "No expense data has been provided yet."

/-- Value stored in `parsed_summary` when parsing fails (app.py line 131). -/
def uploadFailedNotice : String := "Failed to process the uploaded file."

/-- The file-upload handler (app.py lines 116-131): parse the upload; on
success store the rendered summary, on failure store the failure notice.
The message log is never touched. -/
def uploadHandler (st : SessionState) (file : Except String Table) : SessionState :=
  match parse_expense_csv file with
  | some df => { st with parsed_summary := renderSummary (summarize df) }
  | none => { st with parsed_summary := uploadFailedNotice }

/-- The assistant text produced when the completion call raises (app.py
line 160), with the exception text appended. -/
def errorResponseText (e : String) : String := "‚ö†Ô∏è An error occurred: " ++ e

/-- The chat-turn handler (app.py lines 141-164).  `input` is the value of
`st.chat_input(...)`; the empty string is falsy, so nothing happens.  For a
non-empty input the user message is appended, the completion outcome (reply
or exception text) becomes the assistant message, and both are appended in
order. -/
def userTurn (msgs : List Message) (input : String)
    (completion : Except String String) : List Message :=
  if input = "" then msgs
  else
    let withUser := msgs ++ [{ role := "user", content := input }]
    let response := match completion with
      | .ok r => r
      | .error e => errorResponseText e
    withUser ++ [{ role := "assistant", content := response }]

/-- Run a sequence of chat turns, each an input string paired with its
completion outcome. -/
def runTurns (init : List Message) (turns : List (String × Except String String)) :
    List Message :=
  turns.foldl (fun msgs t => userTurn msgs t.1 t.2) init

/-- The fixed system instruction block of the prompt template (app.py lines
33-42). -/
def systemInstruction : String :=
  "You are a helpful and knowledgeable financial advisor. \n         Your task is to assist users in optimizing their monthly budgets. You will be given their income, goals, and a summary of their past expenses.\n         Create a clear, actionable, and realistic monthly budget plan broken into:\n         - Essentials (e.g., rent, groceries, bills)\n         - Debt Repayment (e.g., loans, EMIs)\n         - Savings (e.g., emergency fund, short-term needs)\n         - Investments (e.g., SIPs, mutual funds)\n         - Lifestyle (e.g., dining, shopping, travel)\n         Explain how each part supports the user's goals.\n         If the user asks a question unrelated to budgeting or finance, politely decline."

/-- The human message of the prompt template (app.py line 44) with its two
variables interpolated. -/
def humanMessage (user_input expense_summary : String) : String :=
  "My Information:\n" ++ user_input ++ "\n\nMy Recent Spending Summary:\n" ++ expense_summary

/-- The composed prompt payload: the system instruction followed by the
interpolated human message, joined in template order. -/
def composePrompt (user_input expense_summary : String) : String :=
  systemInstruction ++ "\n" ++ humanMessage user_input expense_summary

/-- First index at which `pat` occurs in `s` (over character lists),
starting the count at `i`. -/
def findSub (pat : List Char) : List Char → Nat → Option Nat
  | s, i =>
    if pat.isPrefixOf s then some i
    else
      match s with
      | [] => none
      | _ :: t => findSub pat t (i + 1)

/-- Position of the first occurrence of `pat` in `s`, if any. -/
def substrPos (s pat : String) : Option Nat := findSub pat.data s.data 0

/-! ## Helper lemmas -/

theorem mem_dedupFirstAux (l : List String) :
    ∀ seen a, a ∈ dedupFirstAux seen l ↔ a ∈ l ∧ a ∉ seen := by
  induction l with
  | nil => intro seen a; simp [dedupFirstAux]
  | cons x xs ih =>
    intro seen a
    simp only [dedupFirstAux]
    split_ifs with hx
    · rw [ih]
      simp only [List.mem_cons]
      constructor
      · rintro ⟨h1, h2⟩; exact ⟨Or.inr h1, h2⟩
      · rintro ⟨h1 | h1, h2⟩
        · exact absurd (h1 ▸ hx) h2
        · exact ⟨h1, h2⟩
    · simp only [List.mem_cons, ih]
      constructor
      · rintro (rfl | ⟨h1, h2⟩)
        · exact ⟨Or.inl rfl, hx⟩
        · exact ⟨Or.inr h1, fun hs => h2 (Or.inr hs)⟩
      · rintro ⟨rfl | h1, h2⟩
        · exact Or.inl rfl
        · by_cases hax : a = x
          · exact Or.inl hax
          · exact Or.inr ⟨h1, fun hs => hs.elim hax h2⟩

theorem nodup_dedupFirstAux (l : List String) :
    ∀ seen, (dedupFirstAux seen l).Nodup := by
  induction l with
  | nil => intro seen; simp [dedupFirstAux]
  | cons x xs ih =>
    intro seen
    by_cases hx : x ∈ seen
    · simpa [dedupFirstAux, if_pos hx] using ih seen
    · simp only [dedupFirstAux, if_neg hx, List.nodup_cons]
      refine ⟨fun hmem => ?_, ih _⟩
      have := (mem_dedupFirstAux xs (x :: seen) x).mp hmem
      exact this.2 (List.mem_cons_self _ _)

theorem mem_dedupFirst {l : List String} {a : String} : a ∈ dedupFirst l ↔ a ∈ l := by
  simp [dedupFirst, mem_dedupFirstAux]

theorem nodup_dedupFirst (l : List String) : (dedupFirst l).Nodup :=
  nodup_dedupFirstAux l []

instance : IsTotal (String × Nat) countGe := ⟨fun a b => Nat.le_total b.2 a.2⟩

instance : IsTrans (String × Nat) countGe :=
  ⟨fun _ _ _ hab hbc => le_trans hbc hab⟩

theorem lookup_cleanRow (c : String) (r : Row) :
    List.lookup c (cleanRow r) = (List.lookup c r).map (cleanCell c) := by
  induction r with
  | nil => rfl
  | cons p r ih =>
    obtain ⟨k, v⟩ := p
    by_cases hck : c = k
    · subst hck
      simp [cleanRow, List.lookup_cons]
    · have hbeq : (c == k) = false := beq_eq_false_iff_ne.mpr hck
      simpa [cleanRow, List.lookup_cons, hbeq] using ih

theorem amountVal_cleanRow (r : Row) :
    amountVal (cleanRow r) = ((getCell r "Amount").toNumeric).getD 0 := by
  unfold amountVal getCell
  rw [lookup_cleanRow]
  cases hl : List.lookup "Amount" r with
  | none => rfl
  | some v => simp [cleanCell, Cell.toNumeric]

theorem descOf_cleanRow (r : Row) :
    descOf (cleanRow r) = strLower (getCell r "Description").asStr := by
  unfold descOf getCell
  rw [lookup_cleanRow]
  cases hl : List.lookup "Description" r with
  | none => rfl
  | some v => simp [cleanCell, Cell.asStr]

theorem typeOf_cleanRow (r : Row) :
    typeOf (cleanRow r) = strLower (getCell r "Type").asStr := by
  unfold typeOf getCell
  rw [lookup_cleanRow]
  cases hl : List.lookup "Type" r with
  | none => rfl
  | some v => simp [cleanCell, Cell.asStr]

theorem isDebit_cleanRow (r : Row) :
    isDebit (cleanRow r) = (strLower (getCell r "Type").asStr == "debit") := by
  unfold isDebit
  rw [show (getCell (cleanRow r) "Type").asStr = strLower (getCell r "Type").asStr from
    typeOf_cleanRow r]

theorem core_ok_of_none {t : Table} (h : firstMissing (renameTable t).cols = none) :
    parseExpenseCsvCore t =
      .ok { cols := (renameTable t).cols
            rows := ((renameTable t).rows.map cleanRow).filter isDebit } := by
  unfold parseExpenseCsvCore
  rw [h]

theorem core_err_of_some {t : Table} {c : String}
    (h : firstMissing (renameTable t).cols = some c) :
    parseExpenseCsvCore t = .error ("CSV is missing the required column: '" ++ c ++ "'") := by
  unfold parseExpenseCsvCore
  rw [h]

theorem core_ok_inv {t t' : Table} (h : parseExpenseCsvCore t = .ok t') :
    firstMissing (renameTable t).cols = none ∧
      t' = { cols := (renameTable t).cols
             rows := ((renameTable t).rows.map cleanRow).filter isDebit } := by
  cases hm : firstMissing (renameTable t).cols with
  | some c => rw [core_err_of_some hm] at h; cases h
  | none =>
    rw [core_ok_of_none hm] at h
    injection h with h
    exact ⟨rfl, h.symm⟩

theorem findSub_of_isPrefixOf {pat s : List Char} {i : Nat}
    (h : pat.isPrefixOf s = true) : findSub pat s i = some i := by
  unfold findSub
  rw [if_pos h]

/-! ## Claim theorems -/

/-- C8: the Ledger Normalizer's column mapping renames exactly the four
vendor-specific headers of the fixed alias table ("Narration / Description"
to Description, the currency-suffixed Amount and Balance headers to Amount
and Balance, "Reference No." to Reference Number), every name outside the
alias table passes through unchanged, and `renameTable` applies this mapping
to every column label. -/
theorem C8_column_aliases :
    column_mapping "Narration / Description" = "Description" ∧
    column_mapping "Amount (‚Çπ)" = "Amount" ∧
    column_mapping "Balance (‚Çπ)" = "Balance" ∧
    column_mapping "Reference No." = "Reference Number" ∧
    (∀ c : String,
      c ∉ (["Narration / Description", "Amount (‚Çπ)", "Balance (‚Çπ)",
            "Reference No."] : List String) →
      column_mapping c = c) ∧
    (∀ t : Table, (renameTable t).cols = t.cols.map column_mapping) := by
  refine ⟨rfl, rfl, rfl, rfl, fun c hc => ?_, fun t => rfl⟩
  simp only [List.mem_cons, List.mem_singleton, not_or] at hc
  obtain ⟨h1, h2, h3, h4⟩ := hc
  simp [column_mapping, h1, h2, h3, h4]

theorem C8_column_aliases_witness :
    column_mapping "Mode" = "Mode" :=
  C8_column_aliases.2.2.2.2.1 "Mode" (by decide)

/-- C2: whenever the renamed table lacks one of the required columns
{Date, Description, Amount, Type}, `parse_expense_csv` raises a ValueError
naming a missing column, the caught error makes the function return None,
and the upload handler stores only the failure notice — no expense summary
is produced. -/
theorem C2_missing_column_aborts (t : Table)
    (h : ∃ c ∈ required_columns, c ∉ (renameTable t).cols) :
    ∃ c ∈ required_columns, c ∉ (renameTable t).cols ∧
      parseExpenseCsvCore t =
        .error ("CSV is missing the required column: '" ++ c ++ "'") ∧
      parse_expense_csv (.ok t) = none ∧
      ∀ st : SessionState, uploadHandler st (.ok t) =
        { st with parsed_summary := uploadFailedNotice } := by
  cases hm : firstMissing (renameTable t).cols with
  | none =>
    exfalso
    obtain ⟨c, hcr, hcn⟩ := h
    exact hcn (by simpa using List.find?_eq_none.mp hm c hcr)
  | some c =>
    have herr := core_err_of_some hm
    have hnone : parse_expense_csv (.ok t) = none := by
      simp [parse_expense_csv, herr, Except.toOption]
    refine ⟨c, List.mem_of_find?_eq_some hm, ?_, herr, hnone, fun st => ?_⟩
    · simpa using List.find?_some hm
    · simp [uploadHandler, hnone]

theorem C2_missing_column_witness :
    parse_expense_csv (.ok { cols := ["Date", "Description", "Amount"], rows := [] })
      = none := by
  obtain ⟨c, _, _, _, h4, _⟩ :=
    C2_missing_column_aborts { cols := ["Date", "Description", "Amount"], rows := [] }
      (by decide)
  exact h4

/-- C3 counterexample: starting from the initial session state, uploading a
table that fails ingestion (here: missing required columns) leaves
`parsed_summary` equal to "Failed to process the uploaded file.", not the
"No expense data has been provided yet." sentinel the claim asserts it
reverts to. -/
theorem C3_counterexample :
    (uploadHandler { messages := [], parsed_summary := noDataSentinel }
        (.ok { cols := ["Date"], rows := [] })).parsed_summary ≠ noDataSentinel := by
  decide

/-- C3 (amended): when ingestion of an upload fails, the message log is
left unchanged and the session's `parsed_summary` is set to the distinct
failure notice "Failed to process the uploaded file." (not the
"no data provided" sentinel), so the session remains usable for chat. -/
theorem C3_upload_failure_state (st : SessionState) (file : Except String Table)
    (h : parse_expense_csv file = none) :
    (uploadHandler st file).messages = st.messages ∧
    (uploadHandler st file).parsed_summary = uploadFailedNotice ∧
    uploadFailedNotice ≠ noDataSentinel := by
  refine ⟨?_, ?_, by decide⟩ <;> simp [uploadHandler, h]

theorem C3_upload_failure_witness :
    (uploadHandler { messages := [], parsed_summary := noDataSentinel }
        (.ok { cols := ["Date"], rows := [] })).messages = [] ∧
    (uploadHandler { messages := [], parsed_summary := noDataSentinel }
        (.ok { cols := ["Date"], rows := [] })).parsed_summary = uploadFailedNotice :=
  ⟨(C3_upload_failure_state _ _ (by decide)).1,
   (C3_upload_failure_state _ _ (by decide)).2.1⟩

/-- C9: `parse_expense_csv` is total at its interface: for every outcome of
reading the uploaded file it either returns None (any internal failure —
unreadable file or missing column — is caught) or returns a table in which
every row passed the debit filter; no exception propagates. -/
theorem C9_parse_total (file : Except String Table) :
    parse_expense_csv file = none ∨
    ∃ t', parse_expense_csv file = some t' ∧ t'.rows.all isDebit = true := by
  cases file with
  | error e => exact Or.inl rfl
  | ok t =>
    cases hm : firstMissing (renameTable t).cols with
    | some c => exact Or.inl (by simp [parse_expense_csv, core_err_of_some hm, Except.toOption])
    | none =>
      refine Or.inr ⟨{ cols := (renameTable t).cols
                       rows := ((renameTable t).rows.map cleanRow).filter isDebit },
        by simp [parse_expense_csv, core_ok_of_none hm, Except.toOption], ?_⟩
      rw [List.all_eq_true]
      intro r hr
      exact List.of_mem_filter hr

theorem userTurn_of_ne {input : String} (h : input ≠ "") (msgs : List Message)
    (c : Except String String) :
    userTurn msgs input c =
      msgs ++ [{ role := "user", content := input },
               { role := "assistant", content := (match c with
                  | .ok r => r
                  | .error e => errorResponseText e) }] := by
  unfold userTurn
  rw [if_neg h]
  simp [List.append_assoc]

theorem runTurns_roles (turns : List (String × Except String String)) :
    ∀ init : List Message, (∀ p ∈ turns, p.1 ≠ "") →
      (runTurns init turns).map Message.role =
        init.map Message.role ++
          (turns.map (fun _ => (["user", "assistant"] : List String))).flatten := by
  induction turns with
  | nil => intro init _; simp [runTurns]
  | cons p rest ih =>
    intro init h
    have hp : p.1 ≠ "" := h p (List.mem_cons_self _ _)
    have hrest : ∀ q ∈ rest, q.1 ≠ "" := fun q hq => h q (List.mem_cons_of_mem _ hq)
    have hstep := ih (userTurn init p.1 p.2) hrest
    simp only [runTurns, List.foldl_cons] at hstep ⊢
    rw [hstep, userTurn_of_ne hp]
    simp [List.append_assoc]

theorem runTurns_appends (turns : List (String × Except String String)) :
    ∀ init : List Message, ∃ rest, runTurns init turns = init ++ rest := by
  induction turns with
  | nil => intro init; exact ⟨[], by simp [runTurns]⟩
  | cons p rest ih =>
    intro init
    obtain ⟨r2, hr2⟩ := ih (userTurn init p.1 p.2)
    have hsplit : ∃ s, userTurn init p.1 p.2 = init ++ s := by
      by_cases hp : p.1 = ""
      · exact ⟨[], by simp [userTurn, hp]⟩
      · exact ⟨_, userTurn_of_ne hp init p.2⟩
    obtain ⟨s, hs⟩ := hsplit
    refine ⟨s ++ r2, ?_⟩
    simp only [runTurns, List.foldl_cons] at hr2 ⊢
    rw [hr2, hs, List.append_assoc]

theorem flatten_role_pairs_length (turns : List (String × Except String String)) :
    ((turns.map (fun _ => (["user", "assistant"] : List String))).flatten).length =
      2 * turns.length := by
  induction turns with
  | nil => simp
  | cons p rest ih =>
    simp only [List.map_cons, List.flatten_cons, List.length_append, List.length_cons,
      List.length_nil, ih]
    omega

/-- C4: the message log built by the turn handler is append-only, and after
N submitted (non-empty) turns it holds exactly 2N entries alternating
user, assistant — also when a turn's completion call fails, in which case
the triggering user message is still appended and the error-prefixed text
becomes that turn's assistant message. -/
theorem C4_append_only_balanced (turns : List (String × Except String String))
    (h : ∀ p ∈ turns, p.1 ≠ "") :
    (runTurns [] turns).map Message.role =
      (turns.map (fun _ => (["user", "assistant"] : List String))).flatten ∧
    (runTurns [] turns).length = 2 * turns.length ∧
    (∀ init : List Message, ∃ rest, runTurns init turns = init ++ rest) ∧
    (∀ (msgs : List Message) (input e : String), input ≠ "" →
      userTurn msgs input (.error e) =
        msgs ++ [{ role := "user", content := input },
                 { role := "assistant", content := errorResponseText e }]) := by
  have hroles := runTurns_roles turns [] h
  simp only [List.map_nil, List.nil_append] at hroles
  refine ⟨hroles, ?_, runTurns_appends turns, fun msgs input e hne => ?_⟩
  · have hlen := congrArg List.length hroles
    rw [List.length_map] at hlen
    rw [hlen, flatten_role_pairs_length]
  · simpa using userTurn_of_ne hne msgs (.error e)

theorem C4_append_only_witness :
    (runTurns [] [("hi", .ok "hello"), ("bad", .error "boom")]).map Message.role =
      ["user", "assistant", "user", "assistant"] := by
  have h := C4_append_only_balanced [("hi", .ok "hello"), ("bad", .error "boom")]
    (by decide)
  simpa using h.1

instance {ε α : Type} [DecidableEq ε] [DecidableEq α] : DecidableEq (Except ε α) :=
  fun a b =>
    match a, b with
    | .ok x, .ok y =>
      if h : x = y then isTrue (h ▸ rfl)
      else isFalse (by intro hc; cases hc; exact h rfl)
    | .error x, .error y =>
      if h : x = y then isTrue (h ▸ rfl)
      else isFalse (by intro hc; cases hc; exact h rfl)
    | .ok _, .error _ => isFalse (by intro hc; cases hc)
    | .error _, .ok _ => isFalse (by intro hc; cases hc)

/-- Sample table whose rows carry the four Type values debit, credit,
DEBIT, refund. -/
def C6_sample : Table :=
  { cols := ["Date", "Description", "Amount", "Type"]
    rows := [
      [("Date", .str "2024-01-01"), ("Description", .str "Coffee"),
       ("Amount", .num 10), ("Type", .str "debit")],
      [("Date", .str "2024-01-02"), ("Description", .str "Salary"),
       ("Amount", .num 100), ("Type", .str "credit")],
      [("Date", .str "2024-01-03"), ("Description", .str "Rent"),
       ("Amount", .num 50), ("Type", .str "DEBIT")],
      [("Date", .str "2024-01-04"), ("Description", .str "Gadget"),
       ("Amount", .num 20), ("Type", .str "refund")]] }

/-- Normalization of `C6_sample`: exactly the debit and DEBIT rows survive,
cleaned. -/
def C6_expected : Table :=
  { cols := ["Date", "Description", "Amount", "Type"]
    rows := [
      [("Date", .str "2024-01-01"), ("Description", .str "coffee"),
       ("Amount", .num 10), ("Type", .str "debit")],
      [("Date", .str "2024-01-03"), ("Description", .str "rent"),
       ("Amount", .num 50), ("Type", .str "debit")]] }

/-- C6: the normalizer's output rows are exactly the input rows (after
renaming) whose lowercased Type is "debit", each cleaned — rows of any
other Type are dropped without an error; on the sample table with Types
{debit, credit, DEBIT, refund} exactly the debit and DEBIT rows remain. -/
theorem C6_debit_only :
    (∀ t t' : Table, parseExpenseCsvCore t = .ok t' →
      t'.rows = ((renameTable t).rows.filter
        (fun r => strLower (getCell r "Type").asStr == "debit")).map cleanRow) ∧
    parseExpenseCsvCore C6_sample = .ok C6_expected := by
  constructor
  · intro t t' h
    obtain ⟨-, rfl⟩ := core_ok_inv h
    show ((renameTable t).rows.map cleanRow).filter isDebit = _
    rw [List.filter_map]
    congr 1
    apply List.filter_congr
    intro r _
    exact isDebit_cleanRow r
  · decide

theorem C6_debit_only_witness :
    C6_expected.rows = ((renameTable C6_sample).rows.filter
      (fun r => strLower (getCell r "Type").asStr == "debit")).map cleanRow :=
  C6_debit_only.1 C6_sample C6_expected C6_debit_only.2

/-- Sample table containing all required columns, with one non-numeric
Amount cell and mixed-case Description/Type text. -/
def C7_sample : Table :=
  { cols := ["Date", "Description", "Amount", "Type"]
    rows := [
      [("Date", .str "2024-01-01"), ("Description", .str "Coffee"),
       ("Amount", .str "oops"), ("Type", .str "DEBIT")]] }

/-- C7: on a table containing all required columns, ingestion succeeds;
an Amount cell whose text fails to parse as a decimal number is coerced to
zero by the cleaning step rather than aborting, and Description and Type
values are lowercased. -/
theorem C7_lenient_coercion (t : Table)
    (h : ∀ c ∈ required_columns, c ∈ (renameTable t).cols) :
    (∃ t', parseExpenseCsvCore t = .ok t') ∧
    (∀ r ∈ (renameTable t).rows, ∀ s : String,
      getCell r "Amount" = .str s → parseDecimal s = none →
      amountVal (cleanRow r) = 0) ∧
    (∀ r ∈ (renameTable t).rows,
      descOf (cleanRow r) = strLower (getCell r "Description").asStr ∧
      typeOf (cleanRow r) = strLower (getCell r "Type").asStr) := by
  refine ⟨?_, ?_, ?_⟩
  · have hm : firstMissing (renameTable t).cols = none := by
      rw [firstMissing, List.find?_eq_none]
      intro c hc
      simp [h c hc]
    exact ⟨_, core_ok_of_none hm⟩
  · intro r _ s hs hp
    rw [amountVal_cleanRow, hs]
    simp [Cell.toNumeric, hp]
  · intro r _
    exact ⟨descOf_cleanRow r, typeOf_cleanRow r⟩

theorem C7_lenient_coercion_witness :
    (∃ t', parseExpenseCsvCore C7_sample = .ok t') ∧
    amountVal (cleanRow [("Date", Cell.str "2024-01-01"),
      ("Description", Cell.str "Coffee"), ("Amount", Cell.str "oops"),
      ("Type", Cell.str "DEBIT")]) = 0 := by
  have h := C7_lenient_coercion C7_sample (by decide)
  refine ⟨h.1, ?_⟩
  exact h.2.1 [("Date", Cell.str "2024-01-01"), ("Description", Cell.str "Coffee"),
    ("Amount", Cell.str "oops"), ("Type", Cell.str "DEBIT")]
    (by decide) "oops" (by decide) (by decide)

/-- Normalized sample table of six debit rows with descriptions
coffee, coffee, rent, rent, rent, gym. -/
def C5_sample : Table :=
  { cols := ["Date", "Description", "Amount", "Type"]
    rows := [
      [("Date", .str "d1"), ("Description", .str "coffee"),
       ("Amount", .num 3), ("Type", .str "debit")],
      [("Date", .str "d2"), ("Description", .str "coffee"),
       ("Amount", .num 4), ("Type", .str "debit")],
      [("Date", .str "d3"), ("Description", .str "rent"),
       ("Amount", .num 100), ("Type", .str "debit")],
      [("Date", .str "d4"), ("Description", .str "rent"),
       ("Amount", .num 100), ("Type", .str "debit")],
      [("Date", .str "d5"), ("Description", .str "rent"),
       ("Amount", .num 100), ("Type", .str "debit")],
      [("Date", .str "d6"), ("Description", .str "gym"),
       ("Amount", .num 20), ("Type", .str "debit")]] }

/-- C5: on a normalized table the summary's total is the sum of the rows'
Amount values; the category list is the top 5 of the value counts — every
listed pair carries the true occurrence count of a description that occurs
in the table, keys are distinct, at most 5 (exactly min 5 #distinct) appear,
counts are descending, and pairs with equal counts keep first-seen order
(they form a sublist of the first-seen pair list).  On the sample with debit
descriptions coffee, coffee, rent, rent, rent, gym the ranking is
rent(3), coffee(2), gym(1) and the total is the sum of the amounts. -/
theorem C5_summary_spec (t : Table) :
    (summarize t).total = (t.rows.map amountVal).sum ∧
    (summarize t).topCategories = (valueCounts (t.rows.map descOf)).take 5 ∧
    (∀ p ∈ (summarize t).topCategories,
      p.2 = (t.rows.map descOf).count p.1 ∧ p.1 ∈ t.rows.map descOf) ∧
    ((summarize t).topCategories.map Prod.fst).Nodup ∧
    (summarize t).topCategories.length = min 5 (dedupFirst (t.rows.map descOf)).length ∧
    (summarize t).topCategories.Pairwise (fun a b => b.2 ≤ a.2) ∧
    (∀ k : Nat, ((summarize t).topCategories.filter (fun p => p.2 == k)).Sublist
      (expensePairs (t.rows.map descOf))) ∧
    ((summarize C5_sample).total = 327 ∧
      (summarize C5_sample).topCategories = [("rent", 3), ("coffee", 2), ("gym", 1)]) := by
  refine ⟨rfl, rfl, ?_, ?_, ?_, ?_, ?_, ?_, by decide⟩
  · intro p hp
    have hp1 : p ∈ valueCounts (t.rows.map descOf) := List.mem_of_mem_take hp
    have hp2 : p ∈ expensePairs (t.rows.map descOf) :=
      (List.perm_insertionSort countGe _).mem_iff.mp hp1
    rcases List.mem_map.mp hp2 with ⟨k, hk, rfl⟩
    exact ⟨rfl, mem_dedupFirst.mp hk⟩
  · have hfst : (expensePairs (t.rows.map descOf)).map Prod.fst =
        dedupFirst (t.rows.map descOf) := by
      rw [expensePairs, List.map_map]
      have hcomp : (Prod.fst ∘ fun k => (k, (t.rows.map descOf).count k)) =
          (id : String → String) := rfl
      rw [hcomp, List.map_id]
    have hperm : ((valueCounts (t.rows.map descOf)).map Prod.fst).Perm
        (dedupFirst (t.rows.map descOf)) := by
      rw [← hfst]
      exact (List.perm_insertionSort countGe _).map _
    have hnd : ((valueCounts (t.rows.map descOf)).map Prod.fst).Nodup :=
      hperm.nodup_iff.mpr (nodup_dedupFirst _)
    have hsub : (((valueCounts (t.rows.map descOf)).take 5).map Prod.fst).Sublist
        ((valueCounts (t.rows.map descOf)).map Prod.fst) :=
      (List.take_sublist 5 _).map _
    exact List.Nodup.sublist hsub hnd
  · show ((valueCounts (t.rows.map descOf)).take 5).length = _
    rw [List.length_take]
    congr 1
    simp [valueCounts, List.length_insertionSort, expensePairs]
  · exact List.Pairwise.sublist (List.take_sublist 5 _)
      (List.sorted_insertionSort countGe _)
  · intro k
    have hpw : ((expensePairs (t.rows.map descOf)).filter
        (fun p => p.2 == k)).Pairwise countGe := by
      apply List.pairwise_of_forall_mem_list
      intro a ha b hb
      have ha2 : a.2 = k := by simpa using List.of_mem_filter ha
      have hb2 : b.2 = k := by simpa using List.of_mem_filter hb
      show b.2 ≤ a.2
      omega
    have h1 : (((expensePairs (t.rows.map descOf)).filter (fun p => p.2 == k))).Sublist
        (valueCounts (t.rows.map descOf)) :=
      List.sublist_insertionSort hpw (List.filter_sublist _)
    have h3 := List.Sublist.filter (fun p => p.2 == k) h1
    have h4 : ((expensePairs (t.rows.map descOf)).filter
          (fun p => p.2 == k)).filter (fun p => p.2 == k) =
        (expensePairs (t.rows.map descOf)).filter (fun p => p.2 == k) :=
      List.filter_eq_self.mpr
        (fun a ha => List.of_mem_filter (p := fun q : String × Nat => q.2 == k) ha)
    rw [h4] at h3
    have hlen2 : ((valueCounts (t.rows.map descOf)).filter
          (fun p => p.2 == k)).length =
        ((expensePairs (t.rows.map descOf)).filter (fun p => p.2 == k)).length :=
      ((List.perm_insertionSort countGe _).filter _).length_eq
    have heq : (valueCounts (t.rows.map descOf)).filter (fun p => p.2 == k) =
        (expensePairs (t.rows.map descOf)).filter (fun p => p.2 == k) :=
      (List.Sublist.eq_of_length h3 hlen2.symm).symm
    have h5 : (((valueCounts (t.rows.map descOf)).take 5).filter
          (fun p => p.2 == k)).Sublist
        ((valueCounts (t.rows.map descOf)).filter (fun p => p.2 == k)) :=
      List.Sublist.filter _ (List.take_sublist 5 _)
    rw [heq] at h5
    exact h5.trans (List.filter_sublist _)
  · have hsum : (summarize C5_sample).total =
        ([3, 4, 100, 100, 100, 20] : List ℚ).sum := rfl
    rw [hsum]
    norm_num [List.sum_cons, List.sum_nil]

theorem C5_summary_witness :
    3 = (C5_sample.rows.map descOf).count "rent" ∧
      "rent" ∈ C5_sample.rows.map descOf :=
  (C5_summary_spec C5_sample).2.2.1 ("rent", 3) (by decide)

/-- C10: an empty chat input is falsy, so the turn handler leaves the
message log unchanged and composes no request; a whitespace-only (non-empty)
input still counts as input and produces a full user/assistant turn. -/
theorem C10_empty_input (msgs : List Message) (c : Except String String) :
    userTurn msgs "" c = msgs ∧
    (∀ r : String, userTurn msgs " " (.ok r) =
      msgs ++ [{ role := "user", content := " " },
               { role := "assistant", content := r }]) := by
  constructor
  · simp [userTurn]
  · intro r
    simp [userTurn]

set_option maxRecDepth 20000 in
/-- C1 counterexample: in the composed prompt for user message "USERMSG"
and expense summary "EXPSUM", the user message occurs at position 719 and
the expense summary at position 756 — the expense-summary text is NOT
strictly before the user message, refuting the claimed
instruction/expense/user order. -/
theorem C1_counterexample :
    substrPos (composePrompt "USERMSG" "EXPSUM") "USERMSG" = some 719 ∧
    substrPos (composePrompt "USERMSG" "EXPSUM") "EXPSUM" = some 756 ∧
    ¬(756 < 719) :=
  ⟨by decide, by decide, by decide⟩

/-- C1 (amended): the composed prompt is exactly the fixed instruction
block, then the literal latest user message, then the expense context, in
that order with the template's fixed separators; the instruction block sits
at position 0.  (The template places the user message before the expense
summary, not after it.) -/
theorem C1_amended_prompt_order (u e : String) :
    composePrompt u e =
      systemInstruction ++ "\n" ++ "My Information:\n" ++ u ++
        "\n\nMy Recent Spending Summary:\n" ++ e ∧
    substrPos (composePrompt u e) systemInstruction = some 0 := by
  constructor
  · simp only [composePrompt, humanMessage, String.append_assoc]
  · have hdata : (composePrompt u e).data =
        systemInstruction.data ++ ("\n" ++ humanMessage u e).data := by
      simp [composePrompt, String.data_append]
    have hpre : systemInstruction.data.isPrefixOf (composePrompt u e).data = true := by
      rw [List.isPrefixOf_iff_prefix, hdata]
      exact List.prefix_append _ _
    rw [substrPos]
    exact findSub_of_isPrefixOf hpre

end BudgetApp
